import Mathlib

/-
Verification of the in-memory Todo store of `todo.controller.ts`
(NestJS controller of the eMan code-review exercise).

The controller keeps a module-level array `todos : TodoItem[]` and a counter
`nextId`, and exposes `getAllTodos`, `getTodoById`, `createTodo`, `updateTodo`
and `deleteTodo`.  We embed the state as a `StoreState` record and each handler
as a pure function from state to result-and-state.  The JavaScript coercion
`Number(id)` applied to the `:id` route parameter is modelled by the type
`JsNum`: `nan` for strings that do not parse as a number, otherwise the numeric
value (all stored ids are integers, and a non-integral numeric value behaves
exactly like `nan` for lookup purposes: `===` against an integral id is false).
-/

namespace TodoStore

/-- `interface TodoItem { id: number; description: string; isDone: boolean }`. -/
structure TodoItem where
  id : Int
  description : String
  isDone : Bool
deriving DecidableEq

/-- `class UpdateTodoDto { description?: string; isDone?: boolean }`:
both fields optional; an absent field is `none`. -/
structure UpdateTodoDto where
  description : Option String := none
  isDone : Option Bool := none
deriving DecidableEq

/-- The value of `Number(id)` for the `:id` route parameter: `nan` when the
string does not parse as a number, otherwise the (integral) numeric value. -/
inductive JsNum where
  | nan : JsNum
  | num : Int → JsNum
deriving DecidableEq

/-- The `===` comparison `t.id === todoId` used by the lookups: `NaN` compares
unequal to everything, a number compares by value. -/
def JsNum.matchesId : JsNum → Int → Bool
  | .nan, _ => false
  | .num n, m => n == m

/-- The controller's module-level mutable state: the array `todos` together
with the counter `nextId`. -/
structure StoreState where
  todos : List TodoItem
  nextId : Int
deriving DecidableEq

/-- The seed collection `let todos: TodoItem[] = [...]` of the source. -/
def seedTodos : List TodoItem :=
  [{ id := 1, description := "Buy groceries", isDone := false },
   { id := 2, description := "Finish NestJS project", isDone := false },
   { id := 3, description := "Walk the dog", isDone := true }]

/-- The initial module state: the seed array and `let nextId = 4`. -/
def initialState : StoreState := { todos := seedTodos, nextId := 4 }

/-- JS `Array.prototype.findIndex`: the index of the first element satisfying
the predicate, or `-1` when there is none (the result is a JS number, so we
keep it an `Int`, exactly as the source compares it with `-1` and passes it to
`splice`). -/
def findIndex (p : TodoItem → Bool) : List TodoItem → Int
  | [] => -1
  | t :: ts =>
    if p t then 0
    else
      let r := findIndex p ts
      if r = -1 then -1 else r + 1

/-- ECMA clamping of the `start` argument of `Array.prototype.splice`:
a negative start counts from the end (clamped at 0), a non-negative start is
clamped at the length. -/
def jsSpliceStart (start : Int) (len : Nat) : Nat :=
  if start < 0 then (max ((len : Int) + start) 0).toNat else min start.toNat len

/-- `todos.splice(start, 1)` restricted to its effect on the array: remove at
most one element at the clamped position. -/
def spliceOne (l : List TodoItem) (start : Int) : List TodoItem :=
  let s := jsSpliceStart start l.length
  l.take s ++ l.drop (s + 1)

/-- Placeholder fed to `List.getD` where the source reads `todos[todoIndex]`;
the surrounding branch guarantees the index is in range, so it is never
consulted. -/
def defaultTodo : TodoItem := { id := 0, description := "", isDone := false }

/-- `GET /todos`: `getAllTodos()` returns the whole array. -/
def getAllTodos (s : StoreState) : List TodoItem := s.todos

/-- `GET /todos/:id`: `getTodoById` coerces the id, scans with `find` and
returns `null` (here `none`) when nothing matches; there is no NaN check. -/
def getTodoById (todoId : JsNum) (s : StoreState) : Option TodoItem :=
  s.todos.find? (fun t => todoId.matchesId t.id)

/-- `POST /todos`: `createTodo`.  The request body carries
`createTodoDto.description`; `none` models an absent body or absent
`description` field, and the falsiness test
`!createTodoDto || !createTodoDto.description` also rejects the empty string,
throwing `BadRequestException` (here `Except.error`).  Otherwise a record
`{ id: nextId++, description, isDone: false }` is pushed onto the array. -/
def createTodo (dto : Option String) (s : StoreState) :
    Except String (TodoItem × StoreState) :=
  match dto with
  | none => .error "Description cannot be empty"
  | some description =>
    if description = "" then .error "Description cannot be empty"
    else
      let newTodo : TodoItem :=
        { id := s.nextId, description := description, isDone := false }
      .ok (newTodo, { todos := s.todos ++ [newTodo], nextId := s.nextId + 1 })

/-- `PUT /todos/:id`: `updateTodo`.  Coerces the id, finds the index, returns
`null` when it is `-1`; otherwise mutates the record in place.  The source
line `existingTodo.isDone = true` always sets `isDone` to `true` and the field
`updateTodoDto.isDone` is never read (the bug the source itself flags);
`description` is overwritten only when present in the dto. -/
def updateTodo (todoId : JsNum) (dto : UpdateTodoDto) (s : StoreState) :
    Option TodoItem × StoreState :=
  let todoIndex := findIndex (fun t => todoId.matchesId t.id) s.todos
  if todoIndex = -1 then (none, s)
  else
    let existingTodo := s.todos.getD todoIndex.toNat defaultTodo
    let afterIsDone := { existingTodo with isDone := true }
    let afterDescription :=
      match dto.description with
      | some d => { afterIsDone with description := d }
      | none => afterIsDone
    (some afterDescription,
     { todos := s.todos.set todoIndex.toNat afterDescription, nextId := s.nextId })

/-- `DELETE /todos/:id`: `deleteTodo`.  Coerces the id, finds the index and
splices unconditionally — even when `findIndex` returned `-1` — then returns a
success message (the source interpolates the raw id into the message; the text
is irrelevant here, only that it is a success-shaped `some`, never `null`). -/
def deleteTodo (todoId : JsNum) (s : StoreState) : Option String × StoreState :=
  let todoIndex := findIndex (fun t => todoId.matchesId t.id) s.todos
  (some "Todo successfully deleted.",
   { todos := spliceOne s.todos todoIndex, nextId := s.nextId })

/-- One external request against the controller. -/
inductive Op where
  | listAll : Op
  | get : JsNum → Op
  | create : Option String → Op
  | update : JsNum → UpdateTodoDto → Op
  | del : JsNum → Op

/-- The state after handling one request (results are dropped; a rejected
create leaves the state untouched, as the exception is thrown before any
mutation). -/
def applyOp : Op → StoreState → StoreState
  | .listAll, s => s
  | .get _, s => s
  | .create dto, s =>
    match createTodo dto s with
    | .ok (_, s2) => s2
    | .error _ => s
  | .update todoId dto, s => (updateTodo todoId dto s).2
  | .del todoId, s => (deleteTodo todoId s).2

/-- The state after a sequence of requests. -/
def runOps : List Op → StoreState → StoreState
  | [], s => s
  | op :: ops, s => runOps ops (applyOp op s)

/-- The ids returned by one request, when it is a successful create. -/
def createdHere : Op → StoreState → List Int
  | .create dto, s =>
    match createTodo dto s with
    | .ok (t, _) => [t.id]
    | .error _ => []
  | _, _ => []

/-- The ids returned by the successful creates of a request sequence, in
order. -/
def createdIds : List Op → StoreState → List Int
  | [], _ => []
  | op :: ops, s => createdHere op s ++ createdIds ops (applyOp op s)

/-- The store invariant relating the array to the counter: every id present is
below `nextId`. -/
def storeInv (s : StoreState) : Prop :=
  ∀ t ∈ s.todos, t.id < s.nextId

/-- `findIndex` yields `-1` when no element satisfies the predicate. -/
theorem findIndex_eq_neg_one (p : TodoItem → Bool) (l : List TodoItem)
    (h : ∀ t ∈ l, p t = false) : findIndex p l = -1 := by
  induction l with
  | nil => rfl
  | cons t ts ih =>
    have ht := h t (List.mem_cons_self t ts)
    have hts := ih (fun u hu => h u (List.mem_cons_of_mem t hu))
    simp [findIndex, ht, hts]

/-- `findIndex` is either `-1` or an in-range index whose element satisfies
the predicate. -/
theorem findIndex_cases (p : TodoItem → Bool) (l : List TodoItem) :
    findIndex p l = -1 ∨
    ∃ i : Nat, findIndex p l = (i : Int) ∧ i < l.length ∧
      p (l.getD i defaultTodo) = true := by
  induction l with
  | nil => exact Or.inl rfl
  | cons t ts ih =>
    by_cases hpt : p t = true
    · exact Or.inr ⟨0, by simp [findIndex, hpt], by simp, by simpa using hpt⟩
    · have hpt2 : p t = false := by simpa using hpt
      rcases ih with h1 | ⟨i, hi, hlen, hp⟩
      · left; simp [findIndex, hpt2, h1]
      · right
        refine ⟨i + 1, ?_, by simpa using Nat.succ_lt_succ hlen, by simpa using hp⟩
        have hne : ¬ ((i : Int) = -1) := by omega
        simp [findIndex, hpt2, hi, hne]

/-- `findIndex` on a split list whose first match is the head of the tail
part returns the length of the unmatched part. -/
theorem findIndex_append_cons (p : TodoItem → Bool) (pre : List TodoItem)
    (t : TodoItem) (post : List TodoItem)
    (hpre : ∀ u ∈ pre, p u = false) (ht : p t = true) :
    findIndex p (pre ++ t :: post) = (pre.length : Int) := by
  induction pre with
  | nil => simp [findIndex, ht]
  | cons u us ih =>
    have hu := hpre u (List.mem_cons_self u us)
    have hus := ih (fun v hv => hpre v (List.mem_cons_of_mem u hv))
    have hne : ¬ (((us.length : Int)) = -1) := by omega
    simp [findIndex, hu, hus, hne]

/-- Reading a split list at the length of its first part yields the head of
its second part. -/
theorem getD_append_cons (pre : List TodoItem) (t : TodoItem)
    (post : List TodoItem) :
    (pre ++ t :: post).getD pre.length defaultTodo = t := by
  induction pre with
  | nil => rfl
  | cons u us ih =>
    show (u :: (us ++ t :: post)).getD (us.length + 1) defaultTodo = t
    rw [List.getD_cons_succ]
    exact ih

/-- Writing a split list at the length of its first part replaces the head of
its second part. -/
theorem set_append_cons (pre : List TodoItem) (t x : TodoItem)
    (post : List TodoItem) :
    (pre ++ t :: post).set pre.length x = pre ++ x :: post := by
  induction pre with
  | nil => rfl
  | cons u us ih =>
    show (u :: (us ++ t :: post)).set (us.length + 1) x = u :: (us ++ x :: post)
    rw [List.set_cons_succ, ih]

/-- `splice(-1, 1)` — the call `deleteTodo` makes when `findIndex` missed —
drops the last element (and is a no-op on the empty array). -/
theorem spliceOne_neg_one (l : List TodoItem) : spliceOne l (-1) = l.dropLast := by
  cases l with
  | nil => rfl
  | cons t ts =>
    have h1 : jsSpliceStart (-1) (t :: ts).length = ts.length := by
      simp [jsSpliceStart]
    show (t :: ts).take (jsSpliceStart (-1) (t :: ts).length) ++
        (t :: ts).drop (jsSpliceStart (-1) (t :: ts).length + 1) = (t :: ts).dropLast
    rw [h1, List.drop_succ_cons, List.drop_length, List.append_nil,
      List.dropLast_eq_take]
    simp

/-- Splicing only removes elements: every survivor was in the array. -/
theorem spliceOne_subset (l : List TodoItem) (st : Int) (t : TodoItem)
    (h : t ∈ spliceOne l st) : t ∈ l := by
  simp only [spliceOne] at h
  rcases List.mem_append.mp h with h1 | h1
  · exact List.mem_of_mem_take h1
  · exact List.mem_of_mem_drop h1

/-- A create with a non-empty description succeeds, appending the freshly
numbered record and bumping the counter. -/
theorem createTodo_ok_eq (d : String) (hd : d ≠ "") (s : StoreState) :
    createTodo (some d) s =
      .ok ({ id := s.nextId, description := d, isDone := false },
           { todos := s.todos ++ [{ id := s.nextId, description := d, isDone := false }],
             nextId := s.nextId + 1 }) := by
  simp [createTodo, hd]

/-- A create request either rejects and leaves the state untouched, or appends
one record carrying the current counter value and bumps the counter. -/
theorem create_applyOp_cases (dto : Option String) (s : StoreState) :
    (applyOp (Op.create dto) s = s ∧ createdHere (Op.create dto) s = []) ∨
    (∃ nt : TodoItem, nt.id = s.nextId ∧
      applyOp (Op.create dto) s = { todos := s.todos ++ [nt], nextId := s.nextId + 1 } ∧
      createdHere (Op.create dto) s = [s.nextId]) := by
  cases dto with
  | none => exact Or.inl ⟨rfl, rfl⟩
  | some d =>
    by_cases hd : d = ""
    · subst hd
      exact Or.inl ⟨rfl, rfl⟩
    · refine Or.inr ⟨{ id := s.nextId, description := d, isDone := false }, rfl, ?_, ?_⟩
      · simp [applyOp, createTodo_ok_eq d hd]
      · simp [createdHere, createTodo_ok_eq d hd]

/-- An update never touches the counter. -/
theorem updateTodo_snd_nextId (todoId : JsNum) (dto : UpdateTodoDto) (s : StoreState) :
    ((updateTodo todoId dto s).2).nextId = s.nextId := by
  simp only [updateTodo]
  split
  · rfl
  · rfl

/-- A delete never touches the counter. -/
theorem deleteTodo_snd_nextId (todoId : JsNum) (s : StoreState) :
    ((deleteTodo todoId s).2).nextId = s.nextId := rfl

/-- An update either misses and leaves the state untouched, or overwrites one
position with a record whose id was already present. -/
theorem updateTodo_snd_cases (todoId : JsNum) (dto : UpdateTodoDto) (s : StoreState) :
    (updateTodo todoId dto s).2 = s ∨
    ∃ (i : Nat) (x : TodoItem), (∃ u ∈ s.todos, x.id = u.id) ∧
      (updateTodo todoId dto s).2 = { todos := s.todos.set i x, nextId := s.nextId } := by
  rcases findIndex_cases (fun t => todoId.matchesId t.id) s.todos with hfi | ⟨i, hfi, hlen, _⟩
  · left
    simp [updateTodo, hfi]
  · right
    have hne : ¬ ((i : Int) = -1) := by omega
    have hgd : s.todos.getD i defaultTodo = s.todos[i] :=
      List.getD_eq_getElem s.todos defaultTodo hlen
    have hg2 : s.todos[i]? = some s.todos[i] := List.getElem?_eq_getElem hlen
    cases hdto : dto.description with
    | none =>
      refine ⟨i, { s.todos[i] with isDone := true },
        ⟨s.todos[i], List.getElem_mem hlen, rfl⟩, ?_⟩
      simp [updateTodo, hfi, hne, hgd, hg2, hdto, Int.toNat_natCast]
    | some d =>
      refine ⟨i, { s.todos[i] with isDone := true, description := d },
        ⟨s.todos[i], List.getElem_mem hlen, rfl⟩, ?_⟩
      simp [updateTodo, hfi, hne, hgd, hg2, hdto, Int.toNat_natCast]

/-- The counter never decreases across a single request. -/
theorem applyOp_nextId_le (op : Op) (s : StoreState) :
    s.nextId ≤ (applyOp op s).nextId := by
  cases op with
  | listAll => exact le_refl _
  | get todoId => exact le_refl _
  | create dto =>
    rcases create_applyOp_cases dto s with ⟨h1, _⟩ | ⟨nt, _, h1, _⟩
    · rw [h1]
    · rw [h1]
      show s.nextId ≤ s.nextId + 1
      omega
  | update todoId dto =>
    have h1 := updateTodo_snd_nextId todoId dto s
    show s.nextId ≤ ((updateTodo todoId dto s).2).nextId
    omega
  | del todoId =>
    exact le_of_eq (deleteTodo_snd_nextId todoId s).symm

/-- The counter never decreases across a request sequence. -/
theorem runOps_nextId_le (ops : List Op) (s : StoreState) :
    s.nextId ≤ (runOps ops s).nextId := by
  induction ops generalizing s with
  | nil => exact le_refl _
  | cons op ops ih => exact le_trans (applyOp_nextId_le op s) (ih (applyOp op s))

/-- Running a concatenation of request sequences runs them in order. -/
theorem runOps_append (l1 l2 : List Op) (s : StoreState) :
    runOps (l1 ++ l2) s = runOps l2 (runOps l1 s) := by
  induction l1 generalizing s with
  | nil => rfl
  | cons op ops ih => exact ih (applyOp op s)

/-- Every request preserves the store invariant. -/
theorem storeInv_applyOp (op : Op) (s : StoreState) (h : storeInv s) :
    storeInv (applyOp op s) := by
  cases op with
  | listAll => exact h
  | get todoId => exact h
  | create dto =>
    rcases create_applyOp_cases dto s with ⟨h1, _⟩ | ⟨nt, hnt, h1, _⟩
    · rw [h1]; exact h
    · rw [h1]
      intro t htmem
      rcases List.mem_append.mp htmem with hmem | hmem
      · have := h t hmem
        show t.id < s.nextId + 1
        omega
      · have heq : t = nt := by simpa using hmem
        subst heq
        show t.id < s.nextId + 1
        omega
  | update todoId dto =>
    rcases updateTodo_snd_cases todoId dto s with h1 | ⟨i, x, ⟨u, hu, hxid⟩, h1⟩
    · show storeInv (updateTodo todoId dto s).2
      rw [h1]; exact h
    · show storeInv (updateTodo todoId dto s).2
      rw [h1]
      intro t htmem
      rcases List.mem_or_eq_of_mem_set htmem with hmem | heq
      · exact h t hmem
      · subst heq
        have := h u hu
        show t.id < s.nextId
        omega
  | del todoId =>
    intro t htmem
    have h2 : t ∈ s.todos :=
      spliceOne_subset s.todos
        (findIndex (fun u => todoId.matchesId u.id) s.todos) t htmem
    exact h t h2

/-- A request sequence preserves the store invariant. -/
theorem storeInv_runOps (ops : List Op) (s : StoreState) (h : storeInv s) :
    storeInv (runOps ops s) := by
  induction ops generalizing s with
  | nil => exact h
  | cons op ops ih => exact ih (applyOp op s) (storeInv_applyOp op s h)

/-- The seed state satisfies the store invariant. -/
theorem storeInv_initialState : storeInv initialState := by
  intro t ht
  simp only [initialState, seedTodos, List.mem_cons, List.not_mem_nil, or_false] at ht
  rcases ht with rfl | rfl | rfl <;> decide

/-- Every id returned by a successful create lies between the counter at the
start of the sequence and the counter at its end. -/
theorem createdIds_bounds (ops : List Op) (s : StoreState) :
    ∀ c ∈ createdIds ops s, s.nextId ≤ c ∧ c < (runOps ops s).nextId := by
  induction ops generalizing s with
  | nil =>
    intro c hc
    simp [createdIds] at hc
  | cons op ops ih =>
    intro c hc
    have happly := applyOp_nextId_le op s
    have hrun : runOps (op :: ops) s = runOps ops (applyOp op s) := rfl
    rw [createdIds] at hc
    rcases List.mem_append.mp hc with hmem | hmem
    · cases op with
      | listAll => simp [createdHere] at hmem
      | get todoId => simp [createdHere] at hmem
      | update todoId dto => simp [createdHere] at hmem
      | del todoId => simp [createdHere] at hmem
      | create dto =>
        rcases create_applyOp_cases dto s with ⟨_, h2⟩ | ⟨nt, hnt, h1, h2⟩
        · rw [h2] at hmem
          simp at hmem
        · rw [h2] at hmem
          have hceq : c = s.nextId := by simpa using hmem
          subst hceq
          refine ⟨le_refl _, ?_⟩
          have h3 : (applyOp (Op.create dto) s).nextId = s.nextId + 1 := by rw [h1]
          have h4 := runOps_nextId_le ops (applyOp (Op.create dto) s)
          rw [hrun]
          omega
    · have h5 := ih (applyOp op s) c hmem
      rw [hrun]
      exact ⟨le_trans happly h5.1, h5.2⟩

/-- The ids returned by the successful creates of a request sequence are
pairwise strictly increasing in creation order. -/
theorem createdIds_pairwise (ops : List Op) (s : StoreState) :
    (createdIds ops s).Pairwise (· < ·) := by
  induction ops generalizing s with
  | nil => simp [createdIds]
  | cons op ops ih =>
    rw [createdIds]
    cases op with
    | listAll => simpa [createdHere] using ih (applyOp Op.listAll s)
    | get todoId => simpa [createdHere] using ih (applyOp (Op.get todoId) s)
    | update todoId dto => simpa [createdHere] using ih (applyOp (Op.update todoId dto) s)
    | del todoId => simpa [createdHere] using ih (applyOp (Op.del todoId) s)
    | create dto =>
      rcases create_applyOp_cases dto s with ⟨h1, h2⟩ | ⟨nt, hnt, h1, h2⟩
      · rw [h2, List.nil_append]
        exact ih (applyOp (Op.create dto) s)
      · rw [h2, List.singleton_append]
        refine List.Pairwise.cons ?_ (ih (applyOp (Op.create dto) s))
        intro c hc
        have h3 := (createdIds_bounds ops (applyOp (Op.create dto) s) c hc).1
        have h4 : (applyOp (Op.create dto) s).nextId = s.nextId + 1 := by rw [h1]
        omega

/-- Claim C1, refuted by the code (the source flags this line as a bug):
record 1 starts with `isDone = false`, yet `updateTodo` with the empty patch
`{}` returns it with `isDone = true` and stores it so — the absent `isDone`
field is effectively treated as "set to true", and the record is not left
byte-for-byte unchanged. -/
theorem C1_empty_patch_flips_isDone :
    getTodoById (JsNum.num 1) initialState =
      some { id := 1, description := "Buy groceries", isDone := false } ∧
    updateTodo (JsNum.num 1) {} initialState =
      (some { id := 1, description := "Buy groceries", isDone := true },
       { todos := [{ id := 1, description := "Buy groceries", isDone := true },
                   { id := 2, description := "Finish NestJS project", isDone := false },
                   { id := 3, description := "Walk the dog", isDone := true }],
         nextId := 4 }) := by
  constructor <;> rfl

/-- Claim C2, refuted by the code (the source flags the unguarded `splice` as
buggy): id 42 resolves to no record, yet `deleteTodo` returns a success
message instead of signalling `NotFound`, and removes the last record
(id 3) from the collection. -/
theorem C2_delete_missing_id_removes_last :
    getTodoById (JsNum.num 42) initialState = none ∧
    deleteTodo (JsNum.num 42) initialState =
      (some "Todo successfully deleted.",
       { todos := [{ id := 1, description := "Buy groceries", isDone := false },
                   { id := 2, description := "Finish NestJS project", isDone := false }],
         nextId := 4 }) := by
  constructor <;> rfl

/-- Claim C3, refuted by the code (the source flags the missing NaN check):
an unparseable id string coerces to NaN, which no operation rejects —
`getTodoById` and `updateTodo` return the same `none` a syntactically valid
but absent id would produce, and `deleteTodo` even reports success while
removing the last record; no `InvalidIdentifier` signal exists. -/
theorem C3_nan_id_never_rejected :
    getTodoById JsNum.nan initialState = none ∧
    updateTodo JsNum.nan {} initialState = (none, initialState) ∧
    deleteTodo JsNum.nan initialState =
      (some "Todo successfully deleted.",
       { todos := [{ id := 1, description := "Buy groceries", isDone := false },
                   { id := 2, description := "Finish NestJS project", isDone := false }],
         nextId := 4 }) := by
  refine ⟨rfl, rfl, rfl⟩

/-- Claim C4: over any request sequence from the initial store, the ids of
successful creates are pairwise distinct and strictly increasing in creation
order, the counter never decreases between any two points of the sequence,
and any id present at some point of the run — in particular one later
deleted — is strictly below every id created afterwards, so no create ever
reissues it. -/
theorem C4_created_ids_fresh (ops pre mid suf : List Op)
    (hops : ops = pre ++ mid ++ suf)
    (t : TodoItem) (c : Int)
    (ht : t ∈ (runOps pre initialState).todos)
    (hc : c ∈ createdIds suf (runOps (pre ++ mid) initialState)) :
    (createdIds ops initialState).Pairwise (· < ·) ∧
    (runOps pre initialState).nextId ≤ (runOps (pre ++ mid) initialState).nextId ∧
    (runOps (pre ++ mid) initialState).nextId ≤ (runOps ops initialState).nextId ∧
    t.id < c := by
  subst hops
  refine ⟨createdIds_pairwise _ _, ?_, ?_, ?_⟩
  · rw [runOps_append]
    exact runOps_nextId_le mid (runOps pre initialState)
  · rw [runOps_append (pre ++ mid) suf]
    exact runOps_nextId_le suf (runOps (pre ++ mid) initialState)
  · have hinv : storeInv (runOps pre initialState) :=
      storeInv_runOps pre initialState storeInv_initialState
    have h1 : t.id < (runOps pre initialState).nextId := hinv t ht
    have h2 : (runOps pre initialState).nextId ≤ (runOps (pre ++ mid) initialState).nextId := by
      rw [runOps_append]
      exact runOps_nextId_le mid (runOps pre initialState)
    have h3 := (createdIds_bounds suf (runOps (pre ++ mid) initialState) c hc).1
    omega

/-- Witness for C4 at the concrete run `deleteTodo 2; createTodo "y"`: the id 2
present initially (and deleted) is below the id 4 the create returns. -/
theorem C4_created_ids_fresh_witness :
    (createdIds [Op.del (JsNum.num 2), Op.create (some "y")] initialState).Pairwise (· < ·) ∧
    (runOps [] initialState).nextId ≤
      (runOps ([] ++ [Op.del (JsNum.num 2)]) initialState).nextId ∧
    (runOps ([] ++ [Op.del (JsNum.num 2)]) initialState).nextId ≤
      (runOps [Op.del (JsNum.num 2), Op.create (some "y")] initialState).nextId ∧
    TodoItem.id { id := 2, description := "Finish NestJS project", isDone := false } < 4 :=
  C4_created_ids_fresh [Op.del (JsNum.num 2), Op.create (some "y")]
    [] [Op.del (JsNum.num 2)] [Op.create (some "y")] rfl
    { id := 2, description := "Finish NestJS project", isDone := false } 4
    (by decide) (by decide)

/-- Claim C5: with a non-empty description, `createTodo` allocates the current
counter value as id, builds the record with `isDone = false`, appends it at
the end of the collection (all prior records and their order preserved),
returns it, and increments the counter by exactly one. -/
theorem C5_create_appends_fresh_record (s : StoreState) (d : String) (hd : d ≠ "") :
    createTodo (some d) s =
      .ok ({ id := s.nextId, description := d, isDone := false },
           { todos := s.todos ++ [{ id := s.nextId, description := d, isDone := false }],
             nextId := s.nextId + 1 }) :=
  createTodo_ok_eq d hd s

/-- Witness for C5 at description "y" on the initial store. -/
theorem C5_create_appends_fresh_record_witness :
    createTodo (some "y") initialState =
      .ok ({ id := 4, description := "y", isDone := false },
           { todos := seedTodos ++ [{ id := 4, description := "y", isDone := false }],
             nextId := 5 }) :=
  C5_create_appends_fresh_record initialState "y" (by decide)

/-- Claim C6: a create with an empty or absent description is rejected with
the `BadRequestException` (the store's `InvalidInput`) and the state — the
collection and the counter — is exactly what it was before the call. -/
theorem C6_create_empty_rejected (s : StoreState) :
    createTodo (some "") s = .error "Description cannot be empty" ∧
    createTodo none s = .error "Description cannot be empty" ∧
    applyOp (Op.create (some "")) s = s ∧
    applyOp (Op.create none) s = s :=
  ⟨rfl, rfl, rfl, rfl⟩

/-- Claim C7, refuted by the code (whose DTOs carry a reviewer note that
validation is missing): `updateTodo` accepts the patch `{description: ""}`,
so record 1 ends up with an empty description, observable through both the
returned record and a subsequent `getTodoById`. -/
theorem C7_empty_description_reachable :
    (updateTodo (JsNum.num 1) { description := some "" } initialState).1 =
      some { id := 1, description := "", isDone := true } ∧
    getTodoById (JsNum.num 1)
        ((updateTodo (JsNum.num 1) { description := some "" } initialState).2) =
      some { id := 1, description := "", isDone := true } := by
  constructor <;> rfl

/-- Claim C8, refuted by the code at its first step (the forced-`isDone` bug):
in the seeded store record 2 has `isDone = false`, but
`updateTodo 2 {description: "x"}` yields `isDone = true` instead of leaving it
unchanged.  (The later steps of the scenario do hold: after deleting id 2 the
list is [1, 3] and a create then returns id 4.) -/
theorem C8_scenario_diverges_at_update :
    getTodoById (JsNum.num 2) initialState =
      some { id := 2, description := "Finish NestJS project", isDone := false } ∧
    (updateTodo (JsNum.num 2) { description := some "x" } initialState).1 =
      some { id := 2, description := "x", isDone := true } ∧
    ((runOps [Op.update (JsNum.num 2) { description := some "x" },
              Op.del (JsNum.num 2)] initialState).todos.map TodoItem.id = [1, 3]) ∧
    createdIds [Op.update (JsNum.num 2) { description := some "x" },
                Op.del (JsNum.num 2), Op.create (some "y")] initialState = [4] := by
  refine ⟨rfl, rfl, rfl, rfl⟩

/-- Claim C9: patching a present record with exactly `{isDone: true}` changes
only that record's `isDone` field — its id and description survive — and
every other record of the collection is untouched. -/
theorem C9_isDone_patch_changes_only_isDone (s : StoreState) (n : Int)
    (pre post : List TodoItem) (t : TodoItem)
    (hs : s.todos = pre ++ t :: post)
    (hpre : ∀ u ∈ pre, u.id ≠ n)
    (ht : t.id = n) :
    updateTodo (JsNum.num n) { isDone := some true } s =
      (some { t with isDone := true },
       { todos := pre ++ { t with isDone := true } :: post, nextId := s.nextId }) := by
  have hfi : findIndex (fun u => (JsNum.num n).matchesId u.id) s.todos = (pre.length : Int) := by
    rw [hs]
    apply findIndex_append_cons
    · intro u hu
      simp only [JsNum.matchesId, beq_eq_false_iff_ne]
      exact fun e => hpre u hu e.symm
    · simp [JsNum.matchesId, ht]
  have hne : ¬ ((pre.length : Int) = -1) := by omega
  have hgd : s.todos.getD pre.length defaultTodo = t := by
    rw [hs]
    exact getD_append_cons pre t post
  have hset : s.todos.set pre.length { t with isDone := true } =
      pre ++ { t with isDone := true } :: post := by
    rw [hs]
    exact set_append_cons pre t { t with isDone := true } post
  have hg2 : s.todos[pre.length]?.getD defaultTodo = t := by
    rw [← List.getD_eq_getElem?_getD]
    exact hgd
  simp [updateTodo, hfi, hne, Int.toNat_natCast, hg2, hset]

/-- Witness for C9: patching record 2 of the seeded store with
`{isDone: true}` flips only its flag; records 1 and 3 are untouched. -/
theorem C9_isDone_patch_changes_only_isDone_witness :
    updateTodo (JsNum.num 2) { isDone := some true } initialState =
      (some { id := 2, description := "Finish NestJS project", isDone := true },
       { todos := [{ id := 1, description := "Buy groceries", isDone := false },
                   { id := 2, description := "Finish NestJS project", isDone := true },
                   { id := 3, description := "Walk the dog", isDone := true }],
         nextId := 4 }) :=
  C9_isDone_patch_changes_only_isDone initialState 2
    [{ id := 1, description := "Buy groceries", isDone := false }]
    [{ id := 3, description := "Walk the dog", isDone := true }]
    { id := 2, description := "Finish NestJS project", isDone := false }
    rfl (by decide) rfl

/-- Claim C10: when the coerced id matches no record, `deleteTodo` still
returns a success message and leaves the counter alone, while the collection
loses exactly its last record (`findIndex`'s `-1` reaching `splice`); on an
empty collection it removes nothing. -/
theorem C10_delete_unmatched_drops_last (todoId : JsNum) (s : StoreState)
    (h : ∀ t ∈ s.todos, todoId.matchesId t.id = false) :
    deleteTodo todoId s =
      (some "Todo successfully deleted.",
       { todos := s.todos.dropLast, nextId := s.nextId }) := by
  have hfi := findIndex_eq_neg_one (fun t => todoId.matchesId t.id) s.todos h
  simp [deleteTodo, hfi, spliceOne_neg_one]

/-- Witness for C10 at id 99 on the initial store: record 3 is dropped. -/
theorem C10_delete_unmatched_drops_last_witness :
    deleteTodo (JsNum.num 99) initialState =
      (some "Todo successfully deleted.",
       { todos := [{ id := 1, description := "Buy groceries", isDone := false },
                   { id := 2, description := "Finish NestJS project", isDone := false }],
         nextId := 4 }) :=
  C10_delete_unmatched_drops_last (JsNum.num 99) initialState (by decide)

end TodoStore
